import Mathlib

/-!
Shallow embedding of the Urdu audio transcription pipeline
(`process_pipeline.py`, class `UrduTranscriptionPipeline`) and proofs of the
specification claims about it.  Pure computations (window arithmetic,
timestamp formatting, result aggregation, ledger update) are translated
directly; filesystem and network effects are abstracted by explicit oracle
parameters (attempt outcomes, file contents) so that the control flow of the
source functions is preserved exactly.
-/

set_option maxHeartbeats 1000000

/-- Python `range(start, stop, step)` for a positive `step`: the list
`start, start+step, start+2*step, …` of values strictly below `stop`. -/
def pyRange (start stop step : Nat) : List Nat :=
  if h : 0 < step ∧ start < stop then
    start :: pyRange (start + step) stop step
  else
    []
termination_by stop - start
decreasing_by omega

theorem pyRange_eq_nil (start stop step : Nat) (h : ¬(0 < step ∧ start < stop)) :
    pyRange start stop step = [] := by
  rw [pyRange, dif_neg h]

theorem pyRange_eq_cons (start stop step : Nat) (h : 0 < step ∧ start < stop) :
    pyRange start stop step = start :: pyRange (start + step) stop step := by
  rw [pyRange, dif_pos h]

/-- Every element of `pyRange start stop step` is strictly below `stop`. -/
theorem pyRange_mem_lt (stop step : Nat) :
    ∀ start x, x ∈ pyRange start stop step → x < stop := by
  have key : ∀ n start x, stop - start ≤ n → x ∈ pyRange start stop step → x < stop := by
    intro n
    induction n with
    | zero =>
      intro start x hle hx
      by_cases h : 0 < step ∧ start < stop
      · omega
      · rw [pyRange_eq_nil _ _ _ h] at hx
        simp at hx
    | succ n ih =>
      intro start x hle hx
      by_cases h : 0 < step ∧ start < stop
      · rw [pyRange_eq_cons _ _ _ h] at hx
        rcases List.mem_cons.mp hx with rfl | hx
        · exact h.2
        · exact ih (start + step) x (by omega) hx
      · rw [pyRange_eq_nil _ _ _ h] at hx
        simp at hx
  intro start x hx
  exact key (stop - start) start x le_rfl hx

/-- The `i`-th element of `pyRange start stop step` is `start + i * step`. -/
theorem pyRange_get (stop step : Nat) :
    ∀ i start (hi : i < (pyRange start stop step).length),
      (pyRange start stop step).get ⟨i, hi⟩ = start + i * step := by
  intro i
  induction i with
  | zero =>
    intro start hi
    by_cases h : 0 < step ∧ start < stop
    · have hcons := pyRange_eq_cons start stop step h
      simp [hcons]
    · have hnil := pyRange_eq_nil start stop step h
      rw [hnil] at hi
      simp at hi
  | succ i ih =>
    intro start hi
    by_cases h : 0 < step ∧ start < stop
    · have hcons := pyRange_eq_cons start stop step h
      have hlen : (pyRange start stop step).length =
          (pyRange (start + step) stop step).length + 1 := by
        rw [hcons]
        rfl
      have hi2 : i < (pyRange (start + step) stop step).length := by omega
      have hstep2 : (pyRange start stop step).get ⟨i + 1, hi⟩ =
          (pyRange (start + step) stop step).get ⟨i, hi2⟩ := by
        simp [hcons]
      rw [hstep2, ih]
      ring
    · have hnil := pyRange_eq_nil start stop step h
      rw [hnil] at hi
      simp at hi

/-- Multiples of `step` below `stop` all occur in `pyRange start stop step`. -/
theorem pyRange_mem_of_multiple (stop step : Nat) (hstep : 0 < step) :
    ∀ k start, start + k * step < stop → start + k * step ∈ pyRange start stop step := by
  intro k
  induction k with
  | zero =>
    intro start hk
    rw [pyRange_eq_cons _ _ _ ⟨hstep, by omega⟩]
    simp
  | succ k ih =>
    intro start hk
    have hstart : start < stop := by nlinarith
    rw [pyRange_eq_cons _ _ _ ⟨hstep, hstart⟩]
    have : start + (k + 1) * step = (start + step) + k * step := by ring
    rw [this]
    exact List.mem_cons_of_mem _ (ih (start + step) (by omega))

/-- The last element of a nonempty `pyRange start stop step` is within one
step of `stop`. -/
theorem pyRange_getLast (stop step : Nat) :
    ∀ start, 0 < step → start < stop →
      ∃ l, (pyRange start stop step).getLast? = some l ∧ stop ≤ l + step ∧ l < stop := by
  have key : ∀ n start, stop - start ≤ n → 0 < step → start < stop →
      ∃ l, (pyRange start stop step).getLast? = some l ∧ stop ≤ l + step ∧ l < stop := by
    intro n
    induction n with
    | zero =>
      intro start hle hstep hlt
      omega
    | succ n ih =>
      intro start hle hstep hlt
      rw [pyRange_eq_cons _ _ _ ⟨hstep, hlt⟩]
      by_cases h2 : start + step < stop
      · obtain ⟨l, hl, hl2, hl3⟩ := ih (start + step) (by omega) hstep h2
        refine ⟨l, ?_, hl2, hl3⟩
        rw [pyRange_eq_cons _ _ _ ⟨hstep, h2⟩] at hl ⊢
        rw [List.getLast?_cons_cons]
        exact hl
      · rw [pyRange_eq_nil _ _ _ (by omega)]
        exact ⟨start, rfl, by omega, hlt⟩
  intro start hstep hlt
  exact key (stop - start) start le_rfl hstep hlt

/-- Zero-padded two-digit decimal rendering, as Python `f"{n:02d}"` for a
nonnegative `n`: the decimal digits, left-padded with `0` to width two. -/
def pad2 (n : Nat) : String :=
  if n < 10 then "0" ++ toString n else toString n

/-- `UrduTranscriptionPipeline.ms_to_timestamp`: milliseconds to an
`"MM:SS:CC"` string (minutes, seconds, hundredths) by integer division. -/
def ms_to_timestamp (ms : Nat) : String :=
  pad2 (ms / 60000) ++ ":" ++ pad2 (ms % 60000 / 1000) ++ ":" ++ pad2 (ms % 1000 / 10)

/-- Metadata record built by `chunk_audio` for each chunk. -/
structure ChunkMeta where
  start_time : String
  end_time : String
  duration_ms : Nat
deriving Repr, DecidableEq

/-- `UrduTranscriptionPipeline.chunk_audio`, window part: the audio stream is
abstracted to its length `duration_ms`; each chunk `audio[start:end]` is
represented by its `(start_ms, end_ms)` window.  Mirrors
`for start_ms in range(0, duration_ms, step_ms): end_ms = min(start_ms +
chunk_size_ms, duration_ms)`. -/
def chunk_windows (duration_ms chunk_size_ms overlap_ms : Nat) : List (Nat × Nat) :=
  (pyRange 0 duration_ms (chunk_size_ms - overlap_ms)).map
    (fun s => (s, min (s + chunk_size_ms) duration_ms))

/-- `UrduTranscriptionPipeline.chunk_audio`, full result: windows, per-chunk
metadata, and the total duration. -/
def chunk_audio (duration_ms : Nat) (chunk_size_ms : Nat := 30000)
    (overlap_ms : Nat := 5000) : List (Nat × Nat) × List ChunkMeta × Nat :=
  let windows := chunk_windows duration_ms chunk_size_ms overlap_ms
  (windows,
   windows.map (fun w => ⟨ms_to_timestamp w.1, ms_to_timestamp w.2, w.2 - w.1⟩),
   duration_ms)

/-- The windows are exactly the pairs `(k*step, min (k*step + chunk) dur)`
for multiples `k*step < dur`. -/
theorem chunk_windows_mem (dur chunk ov : Nat) (hov : ov < chunk) (s e : Nat) :
    (s, e) ∈ chunk_windows dur chunk ov ↔
      (∃ k, s = k * (chunk - ov)) ∧ s < dur ∧ e = min (s + chunk) dur := by
  have hstep : 0 < chunk - ov := by omega
  constructor
  · intro hmem
    obtain ⟨s', hs', heq⟩ := List.mem_map.mp hmem
    obtain ⟨heq1, heq2⟩ := Prod.mk.injEq .. ▸ heq
    subst heq1
    subst heq2
    refine ⟨?_, pyRange_mem_lt dur (chunk - ov) 0 s' hs', rfl⟩
    obtain ⟨i, hi⟩ := List.mem_iff_get.mp hs'
    rw [pyRange_get] at hi
    exact ⟨i.1, by omega⟩
  · rintro ⟨⟨k, rfl⟩, hlt, rfl⟩
    apply List.mem_map.mpr
    refine ⟨k * (chunk - ov), ?_, rfl⟩
    have := pyRange_mem_of_multiple dur (chunk - ov) hstep k 0 (by omega)
    simpa using this

/-- C1: for `chunk_size_ms > overlap_ms ≥ 0` (and any `total_duration_ms ≥ 0`,
which is automatic for `Nat`), `chunk_audio` produces windows whose starts are
`0, step, 2*step, …` (with `step = chunk_size_ms - overlap_ms`) for every
start strictly below the duration, each window ending at
`min (start + chunk_size_ms) total_duration_ms`; the windows cover
`[0, total_duration_ms)` with no gaps, the last window ends exactly at
`total_duration_ms`, and a zero duration yields zero windows. -/
theorem C1_chunk_audio_windows (dur chunk ov : Nat) (hov : ov < chunk) :
    (∀ i (hi : i < (chunk_windows dur chunk ov).length),
        (chunk_windows dur chunk ov).get ⟨i, hi⟩ =
          (i * (chunk - ov), min (i * (chunk - ov) + chunk) dur)) ∧
    (∀ s e, (s, e) ∈ chunk_windows dur chunk ov ↔
        (∃ k, s = k * (chunk - ov)) ∧ s < dur ∧ e = min (s + chunk) dur) ∧
    (∀ t, t < dur → ∃ w, w ∈ chunk_windows dur chunk ov ∧ w.1 ≤ t ∧ t < w.2) ∧
    (dur = 0 → chunk_windows dur chunk ov = []) ∧
    (0 < dur → ∃ w, (chunk_windows dur chunk ov).getLast? = some w ∧ w.2 = dur) ∧
    (chunk_audio dur chunk ov).1 = chunk_windows dur chunk ov := by
  have hstep : 0 < chunk - ov := by omega
  refine ⟨?_, fun s e => chunk_windows_mem dur chunk ov hov s e, ?_, ?_, ?_, rfl⟩
  · intro i hi
    have hlen : (chunk_windows dur chunk ov).length =
        (pyRange 0 dur (chunk - ov)).length := by
      simp [chunk_windows]
    have hi' : i < (pyRange 0 dur (chunk - ov)).length := by omega
    have hget := pyRange_get dur (chunk - ov) i 0 hi'
    simp only [chunk_windows, List.get_map, hget]
    simp
  · intro t ht
    have hmod := Nat.div_add_mod t (chunk - ov)
    have hlt := Nat.mod_lt t hstep
    set q := t / (chunk - ov) with hq
    set r := t % (chunk - ov) with hr
    have hqs : q * (chunk - ov) = (chunk - ov) * q := Nat.mul_comm _ _
    set s := q * (chunk - ov) with hs
    have hsle : s ≤ t := by omega
    have htlt : t < s + (chunk - ov) := by omega
    refine ⟨(s, min (s + chunk) dur), ?_, hsle, ?_⟩
    · exact (chunk_windows_mem dur chunk ov hov s _).mpr ⟨⟨q, rfl⟩, by omega, rfl⟩
    · simp only
      omega
  · intro hdur
    have : ¬(0 < chunk - ov ∧ 0 < dur) := by omega
    simp [chunk_windows, pyRange_eq_nil 0 dur (chunk - ov) (by omega)]
  · intro hdur
    obtain ⟨l, hl, hl2, hl3⟩ := pyRange_getLast dur (chunk - ov) 0 hstep hdur
    refine ⟨(l, min (l + chunk) dur), ?_, by simp only; omega⟩
    simp [chunk_windows, List.getLast?_map, hl]

/-- Witness for C1 at the spec's end-to-end example: a 65-second file with
30-second chunks and 5-second overlap. -/
theorem C1_chunk_audio_windows_witness :
    (5 : Nat) < 30000 ∧
    ((∀ i (hi : i < (chunk_windows 65000 30000 5000).length),
        (chunk_windows 65000 30000 5000).get ⟨i, hi⟩ =
          (i * (30000 - 5000), min (i * (30000 - 5000) + 30000) 65000)) ∧
    (∀ s e, (s, e) ∈ chunk_windows 65000 30000 5000 ↔
        (∃ k, s = k * (30000 - 5000)) ∧ s < 65000 ∧ e = min (s + 30000) 65000) ∧
    (∀ t, t < 65000 → ∃ w, w ∈ chunk_windows 65000 30000 5000 ∧ w.1 ≤ t ∧ t < w.2) ∧
    ((65000 : Nat) = 0 → chunk_windows 65000 30000 5000 = []) ∧
    ((0 : Nat) < 65000 →
        ∃ w, (chunk_windows 65000 30000 5000).getLast? = some w ∧ w.2 = 65000) ∧
    (chunk_audio 65000 30000 5000).1 = chunk_windows 65000 30000 5000) :=
  ⟨by decide, C1_chunk_audio_windows 65000 30000 5000 (by decide)⟩

/-- Python `f"{n:02d}"` for `n < 100` is exactly the two decimal digits of
`n`, zero padded. -/
theorem pad2_digits :
    ∀ n < 100, (pad2 n).data = [Nat.digitChar (n / 10), Nat.digitChar (n % 10)] := by
  decide

/-- C7: `ms_to_timestamp ms` is the string `"MM:SS:CC"` with
`MM = ms / 60000`, `SS = ms % 60000 / 1000`, `CC = ms % 1000 / 10`, each
zero-padded to two digits (exact as long as the minute count fits in two
digits), with truncating integer division throughout; in particular
`ms_to_timestamp 0 = "00:00:00"` and `ms_to_timestamp 65432 = "01:05:43"`. -/
theorem C7_ms_to_timestamp (ms : Nat) (hms : ms / 60000 < 100) :
    ms_to_timestamp 0 = "00:00:00" ∧
    ms_to_timestamp 65432 = "01:05:43" ∧
    ms_to_timestamp ms =
      pad2 (ms / 60000) ++ ":" ++ pad2 (ms % 60000 / 1000) ++ ":" ++
        pad2 (ms % 1000 / 10) ∧
    (ms_to_timestamp ms).data =
      [Nat.digitChar (ms / 60000 / 10), Nat.digitChar (ms / 60000 % 10), ':',
       Nat.digitChar (ms % 60000 / 1000 / 10), Nat.digitChar (ms % 60000 / 1000 % 10), ':',
       Nat.digitChar (ms % 1000 / 10 / 10), Nat.digitChar (ms % 1000 / 10 % 10)] := by
  have h1 : ms % 60000 / 1000 < 100 := by omega
  have h2 : ms % 1000 / 10 < 100 := by omega
  refine ⟨by decide, by decide, rfl, ?_⟩
  show (pad2 (ms / 60000) ++ ":" ++ pad2 (ms % 60000 / 1000) ++ ":" ++
      pad2 (ms % 1000 / 10)).data = _
  simp [String.data_append, pad2_digits _ hms, pad2_digits _ h1, pad2_digits _ h2]

/-- Witness for C7 at `ms = 65432`. -/
theorem C7_ms_to_timestamp_witness :
    (65432 : Nat) / 60000 < 100 ∧
    (ms_to_timestamp 0 = "00:00:00" ∧
     ms_to_timestamp 65432 = "01:05:43" ∧
     ms_to_timestamp 65432 =
       pad2 (65432 / 60000) ++ ":" ++ pad2 (65432 % 60000 / 1000) ++ ":" ++
         pad2 (65432 % 1000 / 10) ∧
     (ms_to_timestamp 65432).data =
       [Nat.digitChar (65432 / 60000 / 10), Nat.digitChar (65432 / 60000 % 10), ':',
        Nat.digitChar (65432 % 60000 / 1000 / 10), Nat.digitChar (65432 % 60000 / 1000 % 10), ':',
        Nat.digitChar (65432 % 1000 / 10 / 10), Nat.digitChar (65432 % 1000 / 10 % 10)]) :=
  ⟨by decide, C7_ms_to_timestamp 65432 (by decide)⟩

/-- Python `str.split()` with no arguments: split on whitespace runs,
discarding empty pieces. -/
def pySplit (s : String) : List String :=
  (s.split (fun c => c.isWhitespace)).filter (fun t => t ≠ "")

/-- `re.search(r'[؀-ۿݐ-ݿ]', text)` from the pipeline:
does the text contain a character in the Urdu/Arabic Unicode ranges? -/
def hasUrduScript (s : String) : Bool :=
  s.data.any (fun c =>
    decide (0x600 ≤ c.toNat ∧ c.toNat ≤ 0x6FF) ||
    decide (0x750 ≤ c.toNat ∧ c.toNat ≤ 0x77F))

/-- Python `s.startswith(pre)`: does `s` begin with the string `pre`?
(Structurally recursive over the character lists, so it evaluates by
`decide`/`rfl`.) -/
def pyStartsWith (s pre : String) : Bool :=
  pre.data.isPrefixOf s.data

/-- One per-chunk result dict built by `process_chunks`.  The error dict in
the source omits the word-count keys, so those are `Option Nat`
(`r.get('urdu_word_count', 0)` is modelled by `Option.getD · 0`); the success
dict omits the `error` key, so `error` is `Option String`. -/
structure ChunkResult where
  chunk_id : Nat
  start_time : String
  end_time : String
  urdu_text : String
  english_translation : String
  urdu_word_count : Option Nat
  english_word_count : Option Nat
  has_urdu_script : Bool
  error : Option String
deriving Repr, DecidableEq

/-- The body of the `process_chunks` loop for the chunk at 0-based index `i`:
the export/transcribe/translate block is abstracted by its outcome, either
`.ok (urdu_text, english_text)` or `.error message` (any exception raised in
the `try` block).  Both branches terminate in `results.append(...)`. -/
def buildChunkResult (i : Nat) (meta : ChunkMeta)
    (outcome : Except String (String × String)) : ChunkResult :=
  match outcome with
  | .ok (u, en) =>
      { chunk_id := i + 1
        start_time := meta.start_time
        end_time := meta.end_time
        urdu_text := u
        english_translation := en
        urdu_word_count := some (pySplit u).length
        english_word_count := some (pySplit en).length
        has_urdu_script := hasUrduScript u
        error := none }
  | .error e =>
      { chunk_id := i + 1
        start_time := meta.start_time
        end_time := meta.end_time
        urdu_text := "[Error in Urdu transcription]"
        english_translation := "[Error in English translation]"
        urdu_word_count := none
        english_word_count := none
        has_urdu_script := false
        error := some e }

/-- `UrduTranscriptionPipeline.process_chunks`: iterate
`enumerate(zip(chunks, chunk_metadata))`; each chunk is represented by its
metadata paired with the outcome of its `try` block.  The function is total:
every exception inside the loop body is caught and converted into an error
result, so the loop always runs to completion. -/
def process_chunks (items : List (ChunkMeta × Except String (String × String))) :
    List ChunkResult :=
  items.enum.map (fun p => buildChunkResult p.1 p.2.1 p.2.2)

/-- `UrduTranscriptionPipeline.save_processed_data`, combined Urdu text:
`" ".join([r['urdu_text'] for r in results if not
r['urdu_text'].startswith('[Error')])`. -/
def combined_urdu_text (results : List ChunkResult) : String :=
  String.intercalate " "
    ((results.filter (fun r => !(pyStartsWith r.urdu_text "[Error"))).map
      (fun r => r.urdu_text))

/-- `UrduTranscriptionPipeline.save_processed_data`, combined English text:
`" ".join([r['english_translation'] for r in results if not
r['english_translation'].startswith('[Error')])`. -/
def combined_english_text (results : List ChunkResult) : String :=
  String.intercalate " "
    ((results.filter (fun r => !(pyStartsWith r.english_translation "[Error"))).map
      (fun r => r.english_translation))

/-- `UrduTranscriptionPipeline.save_processed_data`, summary counter:
`len([r for r in results if not r['urdu_text'].startswith('[Error')])`. -/
def successful_chunks (results : List ChunkResult) : Nat :=
  (results.filter (fun r => !(pyStartsWith r.urdu_text "[Error"))).length

/-- C2: `process_chunks` is total (every exception in the loop body is caught
inside the loop), returns exactly one result per chunk in window order, and
on a failed chunk emits a result carrying the error string, the placeholder
texts, and `has_urdu_script = False`, while a successful chunk's result
carries its texts and no error. -/
theorem C2_process_chunks_results
    (items : List (ChunkMeta × Except String (String × String))) :
    (process_chunks items).length = items.length ∧
    ∀ i (hi : i < items.length),
      ∃ r, (process_chunks items)[i]? = some r ∧
        r.chunk_id = i + 1 ∧
        r.start_time = (items.get ⟨i, hi⟩).1.start_time ∧
        r.end_time = (items.get ⟨i, hi⟩).1.end_time ∧
        (∀ e, (items.get ⟨i, hi⟩).2 = .error e →
          r.error = some e ∧
          r.urdu_text = "[Error in Urdu transcription]" ∧
          r.english_translation = "[Error in English translation]" ∧
          r.has_urdu_script = false) ∧
        (∀ u en, (items.get ⟨i, hi⟩).2 = .ok (u, en) →
          r.error = none ∧ r.urdu_text = u ∧ r.english_translation = en) := by
  constructor
  · simp [process_chunks]
  · intro i hi
    refine ⟨buildChunkResult i (items.get ⟨i, hi⟩).1 (items.get ⟨i, hi⟩).2, ?_, ?_⟩
    · simp only [process_chunks, List.getElem?_map, List.getElem?_enum]
      rw [List.getElem?_eq_getElem hi]
      simp [List.get_eq_getElem]
    · rcases houtcome : (items.get ⟨i, hi⟩).2 with e | p
      · simp [buildChunkResult, houtcome]
      · rcases p with ⟨u, en⟩
        simp [buildChunkResult, houtcome]

/-- Witness for C2 on a two-chunk input: one successful chunk, one whose
processing raised `"boom"`. -/
theorem C2_process_chunks_results_witness :
    (process_chunks [(⟨"00:00:00", "00:30:00", 30000⟩, .ok ("salaam", "hello")),
                     (⟨"00:25:00", "00:55:00", 30000⟩, .error "boom")]).length =
      ([(⟨"00:00:00", "00:30:00", 30000⟩, Except.ok ("salaam", "hello")),
        (⟨"00:25:00", "00:55:00", 30000⟩, Except.error "boom")] :
          List (ChunkMeta × Except String (String × String))).length ∧
    ∀ i (hi : i < ([(⟨"00:00:00", "00:30:00", 30000⟩, Except.ok ("salaam", "hello")),
        (⟨"00:25:00", "00:55:00", 30000⟩, Except.error "boom")] :
          List (ChunkMeta × Except String (String × String))).length),
      ∃ r, (process_chunks [(⟨"00:00:00", "00:30:00", 30000⟩, .ok ("salaam", "hello")),
                            (⟨"00:25:00", "00:55:00", 30000⟩, .error "boom")])[i]? = some r ∧
        r.chunk_id = i + 1 ∧
        r.start_time = (([(⟨"00:00:00", "00:30:00", 30000⟩, Except.ok ("salaam", "hello")),
            (⟨"00:25:00", "00:55:00", 30000⟩, Except.error "boom")] :
              List (ChunkMeta × Except String (String × String))).get ⟨i, hi⟩).1.start_time ∧
        r.end_time = (([(⟨"00:00:00", "00:30:00", 30000⟩, Except.ok ("salaam", "hello")),
            (⟨"00:25:00", "00:55:00", 30000⟩, Except.error "boom")] :
              List (ChunkMeta × Except String (String × String))).get ⟨i, hi⟩).1.end_time ∧
        (∀ e, (([(⟨"00:00:00", "00:30:00", 30000⟩, Except.ok ("salaam", "hello")),
            (⟨"00:25:00", "00:55:00", 30000⟩, Except.error "boom")] :
              List (ChunkMeta × Except String (String × String))).get ⟨i, hi⟩).2 = .error e →
          r.error = some e ∧
          r.urdu_text = "[Error in Urdu transcription]" ∧
          r.english_translation = "[Error in English translation]" ∧
          r.has_urdu_script = false) ∧
        (∀ u en, (([(⟨"00:00:00", "00:30:00", 30000⟩, Except.ok ("salaam", "hello")),
            (⟨"00:25:00", "00:55:00", 30000⟩, Except.error "boom")] :
              List (ChunkMeta × Except String (String × String))).get ⟨i, hi⟩).2 = .ok (u, en) →
          r.error = none ∧ r.urdu_text = u ∧ r.english_translation = en) :=
  C2_process_chunks_results
    [(⟨"00:00:00", "00:30:00", 30000⟩, .ok ("salaam", "hello")),
     (⟨"00:25:00", "00:55:00", 30000⟩, .error "boom")]

/-- Mapping a projection commutes with filtering by a predicate on the
projected value. -/
theorem filter_map_comm {α β : Type} (f : α → β) (p : β → Bool) (l : List α) :
    (l.filter (fun a => p (f a))).map f = (l.map f).filter p := by
  induction l with
  | nil => rfl
  | cons a l ih =>
    by_cases h : p (f a) <;> simp [h, ih]

/-- C3 counterexample: the aggregator keeps a window whose `error` field is
set but whose text is `"ERR"` (it does not start with `"[Error"`), so the
combined text is `"a ERR b"`, not `"a b"` — filtering is by text prefix, not
by the error field. -/
theorem C3_counterexample :
    combined_urdu_text
      [⟨1, "", "", "a", "a", some 1, some 1, false, none⟩,
       ⟨2, "", "", "ERR", "ERR", none, none, false, some "x"⟩,
       ⟨3, "", "", "b", "b", some 1, some 1, false, none⟩] = "a ERR b" ∧
    ("a ERR b" : String) ≠ "a b" := by
  constructor
  · rfl
  · decide

/-- C3 (amended): the aggregator concatenates, in window order joined by a
single space, the texts of exactly those results whose text does not start
with `"[Error"`.  When error windows carry the pipeline's placeholder texts
and successful windows' texts do not start with `"[Error"`, this coincides
with concatenating exactly the windows whose `error` field is unset; in
particular `[{a, none}, {placeholder, "x"}, {b, none}]` combines to
`"a b"`. -/
theorem C3_aggregation_excludes_error_windows (rs : List ChunkResult)
    (hplace : ∀ r ∈ rs, r.error.isSome →
        r.urdu_text = "[Error in Urdu transcription]" ∧
        r.english_translation = "[Error in English translation]")
    (hok : ∀ r ∈ rs, r.error = none →
        pyStartsWith r.urdu_text "[Error" = false ∧
        pyStartsWith r.english_translation "[Error" = false) :
    combined_urdu_text rs =
      String.intercalate " "
        ((rs.filter (fun r => r.error.isNone)).map (fun r => r.urdu_text)) ∧
    combined_english_text rs =
      String.intercalate " "
        ((rs.filter (fun r => r.error.isNone)).map (fun r => r.english_translation)) ∧
    combined_urdu_text
      [⟨1, "", "", "a", "a", some 1, some 1, false, none⟩,
       ⟨2, "", "", "[Error in Urdu transcription]",
        "[Error in English translation]", none, none, false, some "x"⟩,
       ⟨3, "", "", "b", "b", some 1, some 1, false, none⟩] = "a b" := by
  have hfu : rs.filter (fun r => !(pyStartsWith r.urdu_text "[Error")) =
      rs.filter (fun r => r.error.isNone) := by
    apply List.filter_congr
    intro r hr
    rcases he : r.error with _ | e
    · obtain ⟨h1, _⟩ := hok r hr he
      simp [h1]
    · obtain ⟨h1, _⟩ := hplace r hr (by simp [he])
      rw [h1]
      simp only [Option.isNone_some]
      decide
  have hfe : rs.filter (fun r => !(pyStartsWith r.english_translation "[Error")) =
      rs.filter (fun r => r.error.isNone) := by
    apply List.filter_congr
    intro r hr
    rcases he : r.error with _ | e
    · obtain ⟨_, h2⟩ := hok r hr he
      simp [h2]
    · obtain ⟨_, h2⟩ := hplace r hr (by simp [he])
      rw [h2]
      simp only [Option.isNone_some]
      decide
  refine ⟨?_, ?_, by decide⟩
  · rw [combined_urdu_text, hfu]
  · rw [combined_english_text, hfe]

/-- Witness for the amended C3 on pipeline-shaped results: one genuine
window, one placeholder error window, one genuine window. -/
theorem C3_aggregation_excludes_error_windows_witness :
    combined_urdu_text
      [⟨1, "", "", "a", "a", some 1, some 1, false, none⟩,
       ⟨2, "", "", "[Error in Urdu transcription]",
        "[Error in English translation]", none, none, false, some "x"⟩,
       ⟨3, "", "", "b", "b", some 1, some 1, false, none⟩] =
      String.intercalate " "
        ((([⟨1, "", "", "a", "a", some 1, some 1, false, none⟩,
            ⟨2, "", "", "[Error in Urdu transcription]",
             "[Error in English translation]", none, none, false, some "x"⟩,
            ⟨3, "", "", "b", "b", some 1, some 1, false, none⟩] :
              List ChunkResult).filter (fun r => r.error.isNone)).map
          (fun r => r.urdu_text)) ∧
    combined_english_text
      [⟨1, "", "", "a", "a", some 1, some 1, false, none⟩,
       ⟨2, "", "", "[Error in Urdu transcription]",
        "[Error in English translation]", none, none, false, some "x"⟩,
       ⟨3, "", "", "b", "b", some 1, some 1, false, none⟩] =
      String.intercalate " "
        ((([⟨1, "", "", "a", "a", some 1, some 1, false, none⟩,
            ⟨2, "", "", "[Error in Urdu transcription]",
             "[Error in English translation]", none, none, false, some "x"⟩,
            ⟨3, "", "", "b", "b", some 1, some 1, false, none⟩] :
              List ChunkResult).filter (fun r => r.error.isNone)).map
          (fun r => r.english_translation)) ∧
    combined_urdu_text
      [⟨1, "", "", "a", "a", some 1, some 1, false, none⟩,
       ⟨2, "", "", "[Error in Urdu transcription]",
        "[Error in English translation]", none, none, false, some "x"⟩,
       ⟨3, "", "", "b", "b", some 1, some 1, false, none⟩] = "a b" :=
  C3_aggregation_excludes_error_windows
    [⟨1, "", "", "a", "a", some 1, some 1, false, none⟩,
     ⟨2, "", "", "[Error in Urdu transcription]",
      "[Error in English translation]", none, none, false, some "x"⟩,
     ⟨3, "", "", "b", "b", some 1, some 1, false, none⟩]
    (by decide) (by decide)

/-- A successful result whose genuine Urdu transcription happens to begin
with `"[Error"` (its `error` field is unset). -/
def errorLookalikeResult : ChunkResult :=
  buildChunkResult 0 ⟨"00:00:00", "00:30:00", 30000⟩
    (.ok ("[Error codes] ka bayan", "An explanation of error codes"))

/-- C9: membership in the combined texts is decided by the `"[Error"`
text-prefix test, not by the `error` field — each combined text is a function
of the text projection alone, filtered by the prefix test, the two languages
are filtered independently, and `successful_chunks` uses the same Urdu-prefix
test.  Consequently a successful window whose genuine transcription begins
with `"[Error"` is excluded from the combined Urdu text (and from the
success count) while its English translation is still included. -/
theorem C9_prefix_test_aggregation :
    (∀ rs : List ChunkResult,
      combined_urdu_text rs =
        String.intercalate " "
          ((rs.map (fun r => r.urdu_text)).filter
            (fun s => !(pyStartsWith s "[Error"))) ∧
      combined_english_text rs =
        String.intercalate " "
          ((rs.map (fun r => r.english_translation)).filter
            (fun s => !(pyStartsWith s "[Error"))) ∧
      successful_chunks rs =
        ((rs.map (fun r => r.urdu_text)).filter
          (fun s => !(pyStartsWith s "[Error"))).length) ∧
    errorLookalikeResult.error = none ∧
    pyStartsWith errorLookalikeResult.urdu_text "[Error" = true ∧
    combined_urdu_text [errorLookalikeResult] = "" ∧
    combined_english_text [errorLookalikeResult] =
      "An explanation of error codes" ∧
    successful_chunks [errorLookalikeResult] = 0 := by
  refine ⟨?_, by decide, by decide, by decide, by decide, by decide⟩
  intro rs
  refine ⟨?_, ?_, ?_⟩
  · rw [combined_urdu_text,
      filter_map_comm (fun r : ChunkResult => r.urdu_text)
        (fun s => !(pyStartsWith s "[Error"))]
  · rw [combined_english_text,
      filter_map_comm (fun r : ChunkResult => r.english_translation)
        (fun s => !(pyStartsWith s "[Error"))]
  · rw [successful_chunks, ← filter_map_comm (fun r : ChunkResult => r.urdu_text)
      (fun s => !(pyStartsWith s "[Error"))]
    simp

/-- Trace of one call to `process_chunk_with_retries`: the value returned
(`none` models Python falling off the loop, possible only for
`max_retries = 0`; `some (.error e)` models the `raise e` on the final
attempt), the number of attempts made, and the backoff waits slept between
consecutive attempts. -/
structure RetryTrace (α : Type) where
  result : Option (Except String α)
  attempts : Nat
  waits : List ℚ
deriving Repr

/-- One attempt of `process_chunk_with_retries` at 0-based index `n`: the
Urdu transcription call runs first, and only if it succeeds does the English
translation call run; a failure of either remote call raises and fails the
attempt.  A successful attempt returns the two texts and the Urdu-script
flag. -/
def attemptOutcome (transcribe translate : Nat → Except String String) (n : Nat) :
    Except String (String × String × Bool) :=
  match transcribe n with
  | .error e => .error e
  | .ok u =>
    match translate n with
    | .error e => .error e
    | .ok en => .ok (u, en, hasUrduScript u)

/-- The retry loop `for attempt in range(max_retries)` of
`process_chunk_with_retries`, started at `attempt`: on success return; on
failure, if `attempt < max_retries - 1`, sleep `2^attempt + jitter attempt`
seconds (Python `(2 ** attempt) + random.uniform(1, 3)`, the draw abstracted
by the `jitter` oracle) and continue, else `raise e`. -/
def retryLoop {α : Type} (out : Nat → Except String α) (jitter : Nat → ℚ)
    (max_retries : Nat) (attempt : Nat) : RetryTrace α :=
  if h : attempt < max_retries then
    match out attempt with
    | .ok v => ⟨some (.ok v), attempt + 1, []⟩
    | .error e =>
      if attempt < max_retries - 1 then
        let rest := retryLoop out jitter max_retries (attempt + 1)
        ⟨rest.result, rest.attempts, ((2 : ℚ) ^ attempt + jitter attempt) :: rest.waits⟩
      else
        ⟨some (.error e), attempt + 1, []⟩
  else
    ⟨none, attempt, []⟩
termination_by max_retries - attempt
decreasing_by omega

/-- `UrduTranscriptionPipeline.process_chunk_with_retries`: the two remote
calls per attempt are abstracted by outcome oracles indexed by attempt
number, and `random.uniform(1, 3)` by the `jitter` oracle. -/
def process_chunk_with_retries (transcribe translate : Nat → Except String String)
    (jitter : Nat → ℚ) (max_retries : Nat := 3) : RetryTrace (String × String × Bool) :=
  retryLoop (attemptOutcome transcribe translate) jitter max_retries 0

theorem retryLoop_eq_stop {α : Type} (out : Nat → Except String α) (jitter : Nat → ℚ)
    (max_retries attempt : Nat) (h : ¬ attempt < max_retries) :
    retryLoop out jitter max_retries attempt = ⟨none, attempt, []⟩ := by
  rw [retryLoop, dif_neg h]

theorem retryLoop_eq_ok {α : Type} (out : Nat → Except String α) (jitter : Nat → ℚ)
    (max_retries attempt : Nat) (h : attempt < max_retries) (v : α)
    (hout : out attempt = .ok v) :
    retryLoop out jitter max_retries attempt = ⟨some (.ok v), attempt + 1, []⟩ := by
  rw [retryLoop, dif_pos h, hout]

theorem retryLoop_eq_raise {α : Type} (out : Nat → Except String α) (jitter : Nat → ℚ)
    (max_retries attempt : Nat) (h : attempt < max_retries) (e : String)
    (hout : out attempt = .error e) (hlast : ¬ attempt < max_retries - 1) :
    retryLoop out jitter max_retries attempt = ⟨some (.error e), attempt + 1, []⟩ := by
  rw [retryLoop, dif_pos h, hout]
  simp [hlast]

theorem retryLoop_eq_backoff {α : Type} (out : Nat → Except String α) (jitter : Nat → ℚ)
    (max_retries attempt : Nat) (h : attempt < max_retries) (e : String)
    (hout : out attempt = .error e) (hmore : attempt < max_retries - 1) :
    retryLoop out jitter max_retries attempt =
      ⟨(retryLoop out jitter max_retries (attempt + 1)).result,
       (retryLoop out jitter max_retries (attempt + 1)).attempts,
       ((2 : ℚ) ^ attempt + jitter attempt) ::
         (retryLoop out jitter max_retries (attempt + 1)).waits⟩ := by
  rw [retryLoop, dif_pos h, hout]
  simp [hmore]

/-- Invariant of the retry loop: at most `max_retries` attempts are made, a
wait is slept between consecutive attempts only (one fewer wait than
attempts), and the wait before retrying attempt `a+1` is `2^a + jitter a`. -/
theorem retryLoop_invariant {α : Type} (out : Nat → Except String α)
    (jitter : Nat → ℚ) (m : Nat) :
    ∀ attempt, attempt < m →
      (retryLoop out jitter m attempt).attempts ≤ m ∧
      (retryLoop out jitter m attempt).waits.length + attempt + 1 =
        (retryLoop out jitter m attempt).attempts ∧
      ∀ i (hi : i < (retryLoop out jitter m attempt).waits.length),
        (retryLoop out jitter m attempt).waits.get ⟨i, hi⟩ =
          (2 : ℚ) ^ (attempt + i) + jitter (attempt + i) := by
  have key : ∀ n attempt, m - attempt ≤ n → attempt < m →
      (retryLoop out jitter m attempt).attempts ≤ m ∧
      (retryLoop out jitter m attempt).waits.length + attempt + 1 =
        (retryLoop out jitter m attempt).attempts ∧
      ∀ i (hi : i < (retryLoop out jitter m attempt).waits.length),
        (retryLoop out jitter m attempt).waits.get ⟨i, hi⟩ =
          (2 : ℚ) ^ (attempt + i) + jitter (attempt + i) := by
    intro n
    induction n with
    | zero =>
      intro attempt hle hlt
      omega
    | succ n ih =>
      intro attempt hle hlt
      rcases hout : out attempt with e | v
      · by_cases hmore : attempt < m - 1
        · have hrec := retryLoop_eq_backoff out jitter m attempt hlt e hout hmore
          obtain ⟨ih1, ih2, ih3⟩ := ih (attempt + 1) (by omega) (by omega)
          rw [hrec]
          refine ⟨ih1, by simpa using by omega, ?_⟩
          intro i hi
          match i with
          | 0 =>
            simp
          | j + 1 =>
            have hj : j < (retryLoop out jitter m (attempt + 1)).waits.length := by
              simpa using hi
            have := ih3 j hj
            have harith : attempt + 1 + j = attempt + (j + 1) := by omega
            rw [harith] at this
            simpa using this
        · have hrec := retryLoop_eq_raise out jitter m attempt hlt e hout hmore
          rw [hrec]
          refine ⟨?_, ?_, ?_⟩
          · show attempt + 1 ≤ m
            omega
          · show ([] : List ℚ).length + attempt + 1 = attempt + 1
            simp
          · intro i hi
            simp at hi
      · have hrec := retryLoop_eq_ok out jitter m attempt hlt v hout
        rw [hrec]
        refine ⟨?_, ?_, ?_⟩
        · show attempt + 1 ≤ m
          omega
        · show ([] : List ℚ).length + attempt + 1 = attempt + 1
          simp
        · intro i hi
          simp at hi
  intro attempt hlt
  exact key (m - attempt) attempt le_rfl hlt

/-- C4: `process_chunk_with_retries` makes at most `max_retries` attempts and
a failure of either remote call fails the whole attempt; with
`max_retries = 3`, failing twice then succeeding returns the successful
result after exactly 3 attempts, always failing re-raises the final
attempt's error after exactly 3 attempts; between consecutive attempts it
waits `2^attempt_index + jitter` seconds and no wait follows the final
attempt (always one fewer wait than attempts). -/
theorem C4_retry_policy (e0 e1 u en : String) (err : Nat → String)
    (transcribe translate : Nat → Except String String) (jitter : Nat → ℚ)
    (m : Nat) (hm : 0 < m) :
    process_chunk_with_retries
        (fun n => if n = 0 then .error e0 else if n = 1 then .error e1 else .ok u)
        (fun _ => .ok en) jitter 3 =
      ⟨some (.ok (u, en, hasUrduScript u)), 3,
       [(2 : ℚ) ^ 0 + jitter 0, (2 : ℚ) ^ 1 + jitter 1]⟩ ∧
    process_chunk_with_retries (fun n => .error (err n)) translate jitter 3 =
      ⟨some (.error (err 2)), 3,
       [(2 : ℚ) ^ 0 + jitter 0, (2 : ℚ) ^ 1 + jitter 1]⟩ ∧
    (process_chunk_with_retries transcribe translate jitter m).attempts ≤ m ∧
    (process_chunk_with_retries transcribe translate jitter m).waits.length + 1 =
      (process_chunk_with_retries transcribe translate jitter m).attempts ∧
    (∀ i (hi : i <
        (process_chunk_with_retries transcribe translate jitter m).waits.length),
      (process_chunk_with_retries transcribe translate jitter m).waits.get ⟨i, hi⟩ =
        (2 : ℚ) ^ i + jitter i) ∧
    (∀ n e, transcribe n = .error e →
      attemptOutcome transcribe translate n = .error e) ∧
    (∀ n v e, transcribe n = .ok v → translate n = .error e →
      attemptOutcome transcribe translate n = .error e) := by
  obtain ⟨hinv1, hinv2, hinv3⟩ :=
    retryLoop_invariant (attemptOutcome transcribe translate) jitter m 0 hm
  refine ⟨?_, ?_, hinv1, ?_, ?_, ?_, ?_⟩
  · have hout0 : attemptOutcome
        (fun n => if n = 0 then .error e0 else if n = 1 then .error e1 else .ok u)
        (fun _ => .ok en) 0 = .error e0 := rfl
    have hout1 : attemptOutcome
        (fun n => if n = 0 then .error e0 else if n = 1 then .error e1 else .ok u)
        (fun _ => .ok en) 1 = .error e1 := rfl
    have hout2 : attemptOutcome
        (fun n => if n = 0 then .error e0 else if n = 1 then .error e1 else .ok u)
        (fun _ => .ok en) 2 = .ok (u, en, hasUrduScript u) := rfl
    rw [process_chunk_with_retries,
      retryLoop_eq_backoff _ _ 3 0 (by omega) e0 hout0 (by omega),
      retryLoop_eq_backoff _ _ 3 1 (by omega) e1 hout1 (by omega),
      retryLoop_eq_ok _ _ 3 2 (by omega) _ hout2]
  · have houtn : ∀ n, attemptOutcome (fun k => .error (err k)) translate n =
        .error (err n) := fun n => rfl
    rw [process_chunk_with_retries,
      retryLoop_eq_backoff _ _ 3 0 (by omega) (err 0) (houtn 0) (by omega),
      retryLoop_eq_backoff _ _ 3 1 (by omega) (err 1) (houtn 1) (by omega),
      retryLoop_eq_raise _ _ 3 2 (by omega) (err 2) (houtn 2) (by omega)]
  · show (retryLoop (attemptOutcome transcribe translate) jitter m 0).waits.length + 1 =
      (retryLoop (attemptOutcome transcribe translate) jitter m 0).attempts
    omega
  · intro i hi
    have := hinv3 i hi
    simpa using this
  · intro n e he
    simp [attemptOutcome, he]
  · intro n v e hv he
    simp [attemptOutcome, hv, he]

/-- Witness for C4 at concrete oracles: `max_retries = 3`, constant jitter
`2`, a transcriber that always succeeds. -/
theorem C4_retry_policy_witness :
    (0 : Nat) < 3 ∧
    (process_chunk_with_retries
        (fun n => if n = 0 then .error "t0" else if n = 1 then .error "t1" else .ok "matn")
        (fun _ => .ok "text") (fun _ => (2 : ℚ)) 3 =
      ⟨some (.ok ("matn", "text", hasUrduScript "matn")), 3,
       [(2 : ℚ) ^ 0 + 2, (2 : ℚ) ^ 1 + 2]⟩ ∧
    process_chunk_with_retries (fun n => .error (toString n)) (fun _ => .ok "tr")
        (fun _ => (2 : ℚ)) 3 =
      ⟨some (.error (toString 2)), 3, [(2 : ℚ) ^ 0 + 2, (2 : ℚ) ^ 1 + 2]⟩ ∧
    (process_chunk_with_retries (fun _ => .ok "a") (fun _ => .ok "tr")
        (fun _ => (2 : ℚ)) 3).attempts ≤ 3 ∧
    (process_chunk_with_retries (fun _ => .ok "a") (fun _ => .ok "tr")
        (fun _ => (2 : ℚ)) 3).waits.length + 1 =
      (process_chunk_with_retries (fun _ => .ok "a") (fun _ => .ok "tr")
        (fun _ => (2 : ℚ)) 3).attempts ∧
    (∀ i (hi : i < (process_chunk_with_retries (fun _ => .ok "a") (fun _ => .ok "tr")
        (fun _ => (2 : ℚ)) 3).waits.length),
      (process_chunk_with_retries (fun _ => .ok "a") (fun _ => .ok "tr")
        (fun _ => (2 : ℚ)) 3).waits.get ⟨i, hi⟩ = (2 : ℚ) ^ i + 2) ∧
    (∀ n e, (fun (_ : Nat) => (Except.ok "a" : Except String String)) n = .error e →
      attemptOutcome (fun _ => .ok "a") (fun _ => .ok "tr") n = .error e) ∧
    (∀ n v e, (fun (_ : Nat) => (Except.ok "a" : Except String String)) n = .ok v →
      (fun (_ : Nat) => (Except.ok "tr" : Except String String)) n = .error e →
      attemptOutcome (fun _ => .ok "a") (fun _ => .ok "tr") n = .error e)) :=
  ⟨by decide,
   C4_retry_policy "t0" "t1" "matn" "text" (fun n => toString n)
     (fun _ => .ok "a") (fun _ => .ok "tr") (fun _ => (2 : ℚ)) 3 (by decide)⟩

/-- A parsed JSON document, as produced by Python `json.load`. -/
inductive Json where
  | null
  | bool (b : Bool)
  | num (q : ℚ)
  | str (s : String)
  | arr (xs : List Json)
  | obj (fields : List (String × Json))

/-- Dictionary lookup on the field list of a JSON object (keys are unique
after parsing). -/
def getField : List (String × Json) → String → Option Json
  | [], _ => none
  | (k', v) :: rest, k => if k' = k then some v else getField rest k

/-- Dictionary assignment `d[k] = v`: replace the value at `k` in place, or
append the new key at the end (Python dicts preserve insertion order). -/
def setField : List (String × Json) → String → Json → List (String × Json)
  | [], k, v => [(k, v)]
  | (k', v') :: rest, k, v =>
    if k' = k then (k, v) :: rest else (k', v') :: setField rest k v

/-- `j[k]` when `j` is an object holding key `k`; `none` models the
`KeyError`/`TypeError` Python raises otherwise. -/
def objGet : Json → String → Option Json
  | .obj fs, k => getField fs k
  | _, _ => none

/-- `j[k] = v` on an object; on a non-object value the assignment never gets
this far in the modelled code, so the value is returned unchanged. -/
def objSet : Json → String → Json → Json
  | .obj fs, k, v => .obj (setField fs k v)
  | j, _, _ => j

/-- The Python values that support `x + number`: JSON numbers, and JSON
booleans (Python `bool` is an `int` subclass, so `True + 1 == 2`). -/
def asNum : Json → Option ℚ
  | .num q => some q
  | .bool b => some (if b then 1 else 0)
  | _ => none

/-- `metadata[k] += d`: fails (uncaught `KeyError`/`TypeError`) unless
`metadata` is an object whose value at `k` is a number or a boolean. -/
def incKey (j : Json) (k : String) (d : ℚ) : Except String Json :=
  match objGet j k with
  | none => .error ("KeyError or TypeError: " ++ k)
  | some v =>
    match asNum v with
    | none => .error ("TypeError: unsupported operand for +=: " ++ k)
    | some q => .ok (objSet j k (.num (q + d)))

/-- `metadata[k].append(entry)`: fails unless `metadata` is an object whose
value at `k` is a list. -/
def appendKey (j : Json) (k : String) (entry : Json) : Except String Json :=
  match objGet j k with
  | none => .error ("KeyError or TypeError: " ++ k)
  | some (.arr xs) => .ok (objSet j k (.arr (xs ++ [entry])))
  | some _ => .error ("AttributeError: no append on value at " ++ k)

/-- The zero-state ledger document `update_metadata` creates when
`metadata.json` is absent, empty, or malformed. -/
def freshMetadata : Json :=
  .obj [("total_files", .num 0), ("total_duration", .num 0),
        ("processing_history", .arr []), ("avg_accuracy", .num 95),
        ("last_processed", .null)]

/-- The observable state of `processed_data/metadata.json` as seen by
`update_metadata`'s load step: missing or zero-size, unparseable
(`json.JSONDecodeError`/`ValueError`), or parsed to a JSON document. -/
inductive LedgerFile where
  | absent
  | malformed
  | parsed (j : Json)

/-- The load step of `update_metadata`: returns the in-memory metadata and
whether the invalid-file warning was logged. -/
def load_metadata : LedgerFile → Json × Bool
  | .absent => (freshMetadata, false)
  | .malformed => (freshMetadata, true)
  | .parsed j => (j, false)

/-- The subset of `file_data` that `update_metadata` reads:
`file_data["metadata"]["original_file"]`, `["duration_seconds"]`,
`["total_chunks"]`, with `datetime.now().isoformat()` abstracted by `now`. -/
structure FileData where
  original_file : String
  duration_seconds : ℚ
  total_chunks : Nat
  now : String

/-- Python `Path(s).name` for POSIX-style paths. -/
def pathName (s : String) : String :=
  (s.splitOn "/").getLastD ""

/-- The history entry appended by `update_metadata`. -/
def historyEntry (fd : FileData) : Json :=
  .obj [("date", .str fd.now), ("filename", .str (pathName fd.original_file)),
        ("duration", .num fd.duration_seconds),
        ("chunks", .num (fd.total_chunks : ℚ))]

/-- The mutation step of `update_metadata` after loading: increment
`total_files` and `total_duration`, set `last_processed`, append one
`processing_history` entry, in source order; the first failing operation
raises (`\x2eerror`) and nothing is written back. -/
def apply_update (metadata : Json) (fd : FileData) : Except String Json :=
  match incKey metadata "total_files" 1 with
  | .error e => .error e
  | .ok m1 =>
    match incKey m1 "total_duration" fd.duration_seconds with
    | .error e => .error e
    | .ok m2 =>
      let m3 := objSet m2 "last_processed" (.str fd.now)
      appendKey m3 "processing_history" (historyEntry fd)

/-- `UrduTranscriptionPipeline.update_metadata`: load (or reinitialize) the
ledger, then apply the update; `.ok j` is the document written back to
`metadata.json`, `.error` an uncaught exception leaving the file as it
was. -/
def update_metadata (st : LedgerFile) (fd : FileData) : Except String Json :=
  apply_update (load_metadata st).1 fd

/-- The ledger-file transition of one `update_metadata` call: on success the
file holds the new document, on an uncaught exception the run aborts. -/
def update_metadata_step (st : LedgerFile) (fd : FileData) :
    Except String LedgerFile :=
  (update_metadata st fd).map (fun j => .parsed j)

/-- N sequential `update_metadata` calls (one per processed file). -/
def run_updates (st : LedgerFile) (fds : List FileData) :
    Except String LedgerFile :=
  fds.foldlM update_metadata_step st

theorem getField_setField_same (fs : List (String × Json)) (k : String) (v : Json) :
    getField (setField fs k v) k = some v := by
  induction fs with
  | nil => simp [setField, getField]
  | cons p rest ih =>
    by_cases h : p.1 = k
    · simp [setField, getField, h]
    · simp [setField, getField, h, ih]

theorem getField_setField_other (fs : List (String × Json)) (k k' : String)
    (v : Json) (h : k' ≠ k) :
    getField (setField fs k v) k' = getField fs k' := by
  have hk : ¬ k = k' := fun hh => h hh.symm
  induction fs with
  | nil => simp [setField, getField, hk]
  | cons p rest ih =>
    rcases p with ⟨pk, pv⟩
    by_cases hp : pk = k
    · subst hp
      simp [setField, getField, hk]
    · simp [setField, getField, hp, ih]

theorem incKey_eq_ok (j : Json) (k : String) (d q : ℚ)
    (h : objGet j k = some (.num q)) :
    incKey j k d = .ok (objSet j k (.num (q + d))) := by
  unfold incKey
  rw [h]
  rfl

theorem appendKey_eq_ok (j : Json) (k : String) (entry : Json) (xs : List Json)
    (h : objGet j k = some (.arr xs)) :
    appendKey j k entry = .ok (objSet j k (.arr (xs ++ [entry]))) := by
  unfold appendKey
  rw [h]

/-- The ledger documents reachable by the pipeline: an object whose
`total_files`, `total_duration` and `processing_history` fields hold the
given count, duration sum, and history list. -/
def goodLedger (j : Json) (n d : ℚ) (hs : List Json) : Prop :=
  objGet j "total_files" = some (.num n) ∧
  objGet j "total_duration" = some (.num d) ∧
  objGet j "processing_history" = some (.arr hs)

theorem goodLedger_fresh : goodLedger freshMetadata 0 0 [] := by
  refine ⟨rfl, rfl, rfl⟩

/-- One successful `apply_update` on a well-formed ledger document appends
exactly one history entry and increments the two counters. -/
theorem apply_update_good (j : Json) (n d : ℚ) (hs : List Json) (fd : FileData)
    (hg : goodLedger j n d hs) :
    ∃ j', apply_update j fd = .ok j' ∧
      goodLedger j' (n + 1) (d + fd.duration_seconds) (hs ++ [historyEntry fd]) := by
  obtain ⟨h1, h2, h3⟩ := hg
  rcases j with _ | b | q | s | xs | fs
  · exact absurd h1 (by simp [objGet])
  · exact absurd h1 (by simp [objGet])
  · exact absurd h1 (by simp [objGet])
  · exact absurd h1 (by simp [objGet])
  · exact absurd h1 (by simp [objGet])
  have h1f : getField fs "total_files" = some (.num n) := h1
  have e1 : incKey (.obj fs) "total_files" 1 =
      .ok (.obj (setField fs "total_files" (.num (n + 1)))) :=
    incKey_eq_ok (.obj fs) "total_files" 1 n h1
  set fs1 := setField fs "total_files" (Json.num (n + 1)) with hfs1
  have h2f1 : getField fs1 "total_duration" = some (.num d) := by
    rw [hfs1, getField_setField_other _ _ _ _ (by decide)]
    exact h2
  have e2 : incKey (.obj fs1) "total_duration" fd.duration_seconds =
      .ok (.obj (setField fs1 "total_duration" (.num (d + fd.duration_seconds)))) :=
    incKey_eq_ok (.obj fs1) "total_duration" fd.duration_seconds d h2f1
  set fs2 := setField fs1 "total_duration" (Json.num (d + fd.duration_seconds))
    with hfs2
  set fs3 := setField fs2 "last_processed" (Json.str fd.now) with hfs3
  have h3f3 : getField fs3 "processing_history" = some (.arr hs) := by
    rw [hfs3, getField_setField_other _ _ _ _ (by decide),
        hfs2, getField_setField_other _ _ _ _ (by decide),
        hfs1, getField_setField_other _ _ _ _ (by decide)]
    exact h3
  have e4 : appendKey (.obj fs3) "processing_history" (historyEntry fd) =
      .ok (.obj (setField fs3 "processing_history"
        (.arr (hs ++ [historyEntry fd])))) :=
    appendKey_eq_ok (.obj fs3) "processing_history" (historyEntry fd) hs h3f3
  refine ⟨.obj (setField fs3 "processing_history"
    (.arr (hs ++ [historyEntry fd]))), ?_, ?_, ?_, ?_⟩
  · show apply_update (.obj fs) fd = _
    unfold apply_update
    simp only [e1, e2]
    exact e4
  · show getField (setField fs3 "processing_history"
      (.arr (hs ++ [historyEntry fd]))) "total_files" = some (.num (n + 1))
    rw [getField_setField_other _ _ _ _ (by decide),
        hfs3, getField_setField_other _ _ _ _ (by decide),
        hfs2, getField_setField_other _ _ _ _ (by decide),
        hfs1, getField_setField_same]
  · show getField (setField fs3 "processing_history"
      (.arr (hs ++ [historyEntry fd]))) "total_duration" =
        some (.num (d + fd.duration_seconds))
    rw [getField_setField_other _ _ _ _ (by decide),
        hfs3, getField_setField_other _ _ _ _ (by decide),
        hfs2, getField_setField_same]
  · show getField (setField fs3 "processing_history"
      (.arr (hs ++ [historyEntry fd]))) "processing_history" =
        some (.arr (hs ++ [historyEntry fd]))
    rw [getField_setField_same]

/-- Sequential `update_metadata` calls from a well-formed ledger document all
succeed, incrementing the counters once per file and appending history
entries in call order. -/
theorem run_updates_good (fds : List FileData) :
    ∀ (j : Json) (n d : ℚ) (hs : List Json), goodLedger j n d hs →
      ∃ j', run_updates (.parsed j) fds = .ok (.parsed j') ∧
        goodLedger j' (n + fds.length)
          (d + (fds.map (fun fd => fd.duration_seconds)).sum)
          (hs ++ fds.map historyEntry) := by
  induction fds with
  | nil =>
    intro j n d hs hg
    refine ⟨j, rfl, ?_⟩
    simpa using hg
  | cons fd fds ih =>
    intro j n d hs hg
    obtain ⟨j1, hok, hg1⟩ := apply_update_good j n d hs fd hg
    obtain ⟨j', hrun, hg'⟩ :=
      ih j1 (n + 1) (d + fd.duration_seconds) (hs ++ [historyEntry fd]) hg1
    refine ⟨j', ?_, ?_, ?_, ?_⟩
    · show ((update_metadata (.parsed j) fd).map (fun j => LedgerFile.parsed j)).bind
        (fun st => run_updates st fds) = .ok (.parsed j')
      show ((apply_update j fd).map (fun j => LedgerFile.parsed j)).bind
        (fun st => run_updates st fds) = .ok (.parsed j')
      rw [hok]
      exact hrun
    · obtain ⟨hh, _, _⟩ := hg'
      rw [hh]
      congr 2
      simp only [List.length_cons]
      push_cast
      ring
    · obtain ⟨_, hh, _⟩ := hg'
      rw [hh]
      congr 2
      simp only [List.map_cons, List.sum_cons]
      ring
    · obtain ⟨_, _, hh⟩ := hg'
      rw [hh]
      congr 1
      simp

/-- C5: on a malformed `metadata.json`, `update_metadata` does not crash: it
logs the invalid-file warning, reinitializes the ledger to the zero-state,
and completes the update, so the written ledger has `total_files = 1` and
exactly one history entry. -/
theorem C5_corrupt_ledger_recovery (fd : FileData) :
    (load_metadata .malformed).2 = true ∧
    ∃ j', update_metadata .malformed fd = .ok j' ∧
      objGet j' "total_files" = some (.num 1) ∧
      objGet j' "processing_history" = some (.arr [historyEntry fd]) := by
  refine ⟨rfl, ?_⟩
  obtain ⟨j', hok, hg1, hg2, hg3⟩ :=
    apply_update_good freshMetadata 0 0 [] fd goodLedger_fresh
  refine ⟨j', hok, ?_, ?_⟩
  · rw [hg1]
    norm_num
  · simpa using hg3

/-- Sample file data used to witness the ledger claims. -/
def fdSampleA : FileData := ⟨"Dataset/a.mp3", 5, 2, "2026-01-01T00:00:00"⟩

/-- Second sample file data used to witness the ledger claims. -/
def fdSampleB : FileData := ⟨"Dataset/b.mp3", 7, 3, "2026-01-02T00:00:00"⟩

/-- C6: an absent ledger behaves like the zero-state one; each successful
`update_metadata` call on a well-formed ledger appends exactly one history
entry and increments `total_files` by exactly one; and after `N` sequential
successful calls starting from the zero-state, `total_files = N`, the
history holds exactly the `N` entries in call order, and `total_duration` is
the sum of the files' `duration_seconds`. -/
theorem C6_ledger_monotonic (fds : List FileData) :
    (∀ fd, update_metadata .absent fd = update_metadata (.parsed freshMetadata) fd) ∧
    (∀ (j : Json) (n d : ℚ) (hs : List Json) (fd : FileData), goodLedger j n d hs →
      ∃ j', update_metadata (.parsed j) fd = .ok j' ∧
        goodLedger j' (n + 1) (d + fd.duration_seconds) (hs ++ [historyEntry fd])) ∧
    ∃ j', run_updates (.parsed freshMetadata) fds = .ok (.parsed j') ∧
      objGet j' "total_files" = some (.num (fds.length : ℚ)) ∧
      objGet j' "total_duration" =
        some (.num ((fds.map (fun fd => fd.duration_seconds)).sum)) ∧
      objGet j' "processing_history" = some (.arr (fds.map historyEntry)) := by
  refine ⟨fun fd => rfl, ?_, ?_⟩
  · intro j n d hs fd hg
    exact apply_update_good j n d hs fd hg
  · obtain ⟨j', hrun, h1, h2, h3⟩ :=
      run_updates_good fds freshMetadata 0 0 [] goodLedger_fresh
    refine ⟨j', hrun, ?_, ?_, ?_⟩
    · rw [h1]
      norm_num
    · rw [h2]
      norm_num
    · simpa using h3

/-- Witness for C6 on a two-file run. -/
theorem C6_ledger_monotonic_witness :
    (∀ fd, update_metadata .absent fd = update_metadata (.parsed freshMetadata) fd) ∧
    (∀ (j : Json) (n d : ℚ) (hs : List Json) (fd : FileData), goodLedger j n d hs →
      ∃ j', update_metadata (.parsed j) fd = .ok j' ∧
        goodLedger j' (n + 1) (d + fd.duration_seconds) (hs ++ [historyEntry fd])) ∧
    ∃ j', run_updates (.parsed freshMetadata) [fdSampleA, fdSampleB] =
        .ok (.parsed j') ∧
      objGet j' "total_files" =
        some (.num (([fdSampleA, fdSampleB] : List FileData).length : ℚ)) ∧
      objGet j' "total_duration" =
        some (.num ((([fdSampleA, fdSampleB] : List FileData).map
          (fun fd => fd.duration_seconds)).sum)) ∧
      objGet j' "processing_history" =
        some (.arr (([fdSampleA, fdSampleB] : List FileData).map historyEntry)) :=
  C6_ledger_monotonic [fdSampleA, fdSampleB]

theorem objGet_some_obj (j : Json) (k : String) (v : Json)
    (h : objGet j k = some v) : ∃ fs, j = .obj fs := by
  rcases j with _ | b | q | s | xs | fs
  · exact absurd h (by simp [objGet])
  · exact absurd h (by simp [objGet])
  · exact absurd h (by simp [objGet])
  · exact absurd h (by simp [objGet])
  · exact absurd h (by simp [objGet])
  · exact ⟨fs, rfl⟩

theorem objGet_objSet_other_of (j : Json) (k k' : String) (v : Json)
    (h : k' ≠ k) (hobj : ∃ fs, j = .obj fs) :
    objGet (objSet j k v) k' = objGet j k' := by
  obtain ⟨fs, rfl⟩ := hobj
  simp [objGet, objSet, getField_setField_other fs k k' v h]

theorem objSet_obj (j : Json) (k : String) (v : Json) (hobj : ∃ fs, j = .obj fs) :
    ∃ fs', objSet j k v = .obj fs' := by
  obtain ⟨fs, rfl⟩ := hobj
  exact ⟨setField fs k v, rfl⟩

theorem incKey_ok_inv (j : Json) (k : String) (d : ℚ) (j2 : Json)
    (h : incKey j k d = .ok j2) :
    ∃ q, (objGet j k).bind asNum = some q ∧ j2 = objSet j k (.num (q + d)) := by
  unfold incKey at h
  split at h
  · simp at h
  · rename_i v hg
    split at h
    · simp at h
    · rename_i q hv
      simp at h
      exact ⟨q, by simp [hg, hv], h.symm⟩

theorem appendKey_ok_inv (j : Json) (k : String) (entry : Json) (j2 : Json)
    (h : appendKey j k entry = .ok j2) :
    ∃ xs, objGet j k = some (.arr xs) ∧ j2 = objSet j k (.arr (xs ++ [entry])) := by
  unfold appendKey at h
  split at h
  · simp at h
  · rename_i xs hg
    simp at h
    exact ⟨xs, hg, h.symm⟩
  · simp at h

/-- The ledger-document shapes `update_metadata` can mutate without an
uncaught exception: an object whose `total_files` and `total_duration`
support `+= number` in Python (JSON numbers, or JSON booleans since Python
`bool` is an `int`) and whose `processing_history` is a list. -/
def ledgerShapeOK (j : Json) : Prop :=
  (∃ q, (objGet j "total_files").bind asNum = some q) ∧
  (∃ q, (objGet j "total_duration").bind asNum = some q) ∧
  (∃ xs, objGet j "processing_history" = some (.arr xs))

/-- If `apply_update` succeeds, the input document had the mutable shape. -/
theorem apply_update_ok_shape (j : Json) (fd : FileData) (j' : Json)
    (h : apply_update j fd = .ok j') : ledgerShapeOK j := by
  unfold apply_update at h
  split at h
  · simp at h
  · rename_i m1 h1
    split at h
    · simp at h
    · rename_i m2 h2
      obtain ⟨q1, hq1, hm1⟩ := incKey_ok_inv j "total_files" 1 m1 h1
      have hobj : ∃ fs, j = .obj fs := by
        rcases hg : objGet j "total_files" with _ | v
        · rw [hg] at hq1
          simp at hq1
        · exact objGet_some_obj j "total_files" v hg
      obtain ⟨q2, hq2, hm2⟩ :=
        incKey_ok_inv m1 "total_duration" fd.duration_seconds m2 h2
      have hm1get : objGet m1 "total_duration" = objGet j "total_duration" := by
        rw [hm1]
        exact objGet_objSet_other_of j "total_files" "total_duration" _
          (by decide) hobj
      have hobj1 : ∃ fs, m1 = .obj fs := by
        rw [hm1]
        exact objSet_obj j "total_files" _ hobj
      have hobj2 : ∃ fs, m2 = .obj fs := by
        rw [hm2]
        exact objSet_obj m1 "total_duration" _ hobj1
      obtain ⟨xs, hxs, _⟩ :=
        appendKey_ok_inv _ "processing_history" (historyEntry fd) j' h
      have hm3get : objGet (objSet m2 "last_processed" (.str fd.now))
          "processing_history" = objGet m2 "processing_history" :=
        objGet_objSet_other_of m2 "last_processed" "processing_history" _
          (by decide) hobj2
      have hm2get : objGet m2 "processing_history" =
          objGet m1 "processing_history" := by
        rw [hm2]
        exact objGet_objSet_other_of m1 "total_duration" "processing_history" _
          (by decide) hobj1
      have hm1get2 : objGet m1 "processing_history" =
          objGet j "processing_history" := by
        rw [hm1]
        exact objGet_objSet_other_of j "total_files" "processing_history" _
          (by decide) hobj
      refine ⟨⟨q1, hq1⟩, ⟨q2, ?_⟩, ⟨xs, ?_⟩⟩
      · rw [← hm1get]
        exact hq2
      · rw [← hm1get2, ← hm2get, ← hm3get]
        exact hxs

/-- C10 counterexample: a valid-JSON ledger whose `total_files` is the JSON
boolean `true` (not a number) is mutated without any exception — Python
`bool` is an `int` subclass, so `True += 1` succeeds — contradicting the
claim that every valid-JSON document that is not an object with numeric
counter fields raises. -/
theorem C10_counterexample :
    (∃ j', update_metadata
        (.parsed (.obj [("total_files", .bool true), ("total_duration", .num 0),
          ("processing_history", .arr [])])) fdSampleA = .ok j') ∧
    objGet (.obj [("total_files", .bool true), ("total_duration", .num 0),
        ("processing_history", .arr [])]) "total_files" = some (.bool true) ∧
    (∀ q : ℚ, Json.bool true ≠ Json.num q) := by
  refine ⟨⟨_, rfl⟩, rfl, fun q h => Json.noConfusion h⟩

/-- C10 (amended): `update_metadata` recovers (reinitializes and succeeds)
exactly from an absent, empty, or unparseable `metadata.json`; for a file
that parses to valid JSON without the mutable shape — an object whose
`total_files` and `total_duration` are numbers or booleans and whose
`processing_history` is a list — it raises an uncaught exception and the
ledger file is not rewritten. -/
theorem C10_ledger_recovery_scope (j : Json) (fd : FileData)
    (hbad : ¬ ledgerShapeOK j) :
    (∃ j1, update_metadata .absent fd = .ok j1) ∧
    (∃ j2, update_metadata .malformed fd = .ok j2) ∧
    (∃ e, update_metadata (.parsed j) fd = .error e) := by
  refine ⟨?_, ?_, ?_⟩
  · obtain ⟨j1, hok, _⟩ := apply_update_good freshMetadata 0 0 [] fd goodLedger_fresh
    exact ⟨j1, hok⟩
  · obtain ⟨j2, hok, _⟩ := apply_update_good freshMetadata 0 0 [] fd goodLedger_fresh
    exact ⟨j2, hok⟩
  · rcases hres : update_metadata (.parsed j) fd with e | j'
    · exact ⟨e, rfl⟩
    · exact absurd (apply_update_ok_shape j fd j' hres) hbad

/-- Witness for the amended C10 at a ledger file holding the JSON string
`"oops"`. -/
theorem C10_ledger_recovery_scope_witness :
    (∃ j1, update_metadata .absent fdSampleA = .ok j1) ∧
    (∃ j2, update_metadata .malformed fdSampleA = .ok j2) ∧
    (∃ e, update_metadata (.parsed (.str "oops")) fdSampleA = .error e) :=
  C10_ledger_recovery_scope (.str "oops") fdSampleA
    (by rintro ⟨⟨q, hq⟩, _, _⟩; simp [objGet] at hq)

/-- `UrduTranscriptionPipeline.process_dataset_folder`: the filesystem walk
is abstracted by whether the root exists and by the ordered list of
discovered audio files (`rglob` over the recognized extensions), and
`process_file` by a per-file outcome oracle.  A missing root raises
`FileNotFoundError` before anything is processed; otherwise every file is
attempted in order, and a per-file exception is caught, logged (recorded in
the trace), and the walk continues with the next file. -/
def process_dataset_folder (dataset_path : String) (root_exists : Bool)
    (audio_files : List String) (proc : String → Except String Unit) :
    Except String (List (String × Option String)) :=
  if root_exists = false then
    .error ("Dataset folder not found: " ++ dataset_path)
  else
    .ok (audio_files.map (fun f =>
      (f, match proc f with
          | .ok _ => none
          | .error e => some e)))

/-- C8: `process_dataset_folder` raises a "not found" error and processes
nothing when the root does not exist; otherwise it attempts every discovered
audio file in order, recording per-file failures and continuing, so no
single file's failure stops the dataset run. -/
theorem C8_dataset_walker (path : String) (files : List String)
    (proc : String → Except String Unit) :
    process_dataset_folder path false files proc =
      .error ("Dataset folder not found: " ++ path) ∧
    ∃ report, process_dataset_folder path true files proc = .ok report ∧
      report.map (fun p => p.1) = files ∧
      ∀ i (hi : i < files.length),
        report[i]? = some (files.get ⟨i, hi⟩,
          match proc (files.get ⟨i, hi⟩) with
          | .ok _ => none
          | .error e => some e) := by
  refine ⟨rfl, ⟨_, rfl, ?_, ?_⟩⟩
  · induction files with
    | nil => rfl
    | cons f fs ih => simpa using ih
  · intro i hi
    simp only [List.getElem?_map]
    rw [List.getElem?_eq_getElem hi]
    simp [List.get_eq_getElem]

/-- Witness for C8: a two-file dataset where the first file fails and the
second is still processed. -/
theorem C8_dataset_walker_witness :
    process_dataset_folder "Dataset" false ["a.mp3", "b.mp3"]
        (fun f => if f = "a.mp3" then .error "boom" else .ok ()) =
      .error ("Dataset folder not found: " ++ "Dataset") ∧
    ∃ report, process_dataset_folder "Dataset" true ["a.mp3", "b.mp3"]
        (fun f => if f = "a.mp3" then .error "boom" else .ok ()) = .ok report ∧
      report.map (fun p => p.1) = ["a.mp3", "b.mp3"] ∧
      ∀ i (hi : i < (["a.mp3", "b.mp3"] : List String).length),
        report[i]? = some ((["a.mp3", "b.mp3"] : List String).get ⟨i, hi⟩,
          match (fun f => if f = "a.mp3" then Except.error "boom" else Except.ok ())
              ((["a.mp3", "b.mp3"] : List String).get ⟨i, hi⟩) with
          | .ok _ => none
          | .error e => some e) :=
  C8_dataset_walker "Dataset" ["a.mp3", "b.mp3"]
    (fun f => if f = "a.mp3" then .error "boom" else .ok ())

/-- Witness for C5 at a concrete file record. -/
theorem C5_corrupt_ledger_recovery_witness :
    (load_metadata .malformed).2 = true ∧
    ∃ j', update_metadata .malformed fdSampleB = .ok j' ∧
      objGet j' "total_files" = some (.num 1) ∧
      objGet j' "processing_history" = some (.arr [historyEntry fdSampleB]) :=
  C5_corrupt_ledger_recovery fdSampleB
